import Mathlib

/-!
Verification of the genjibot core: the skill-tier Rank Calculator
(`rank_finder`, src/utils/utils.py), the Role Reconciler (`auto_role`,
src/utils/utils.py) and the map-submission persistence pipeline
(`MapSubmission.insert_*` / `insert_all`, src/utils/maps.py), shallowly
embedded as pure Lean functions.
-/

set_option autoImplicit false

namespace Genji

/-! ### Rank Calculator (src/utils/utils.py:149-160) -/

/-- The Completion Aggregator's output: a mapping from difficulty-bucket name
to the 4-tuple (completions, gold, silver, bronze), `None` for buckets with no
qualifying completion (`diff not in amounts` in the source). -/
abbrev Amounts := String → Option (Nat × Nat × Nat × Nat)

/-- Modelled from the spec: the ordered bucket list `utils.DIFFICULTIES` lives
in a constants module that is not under `src/`.  Spec §8 (Scenario A) fixes the
walked order (Easy, Medium, Hard, Very Hard, Extreme, Hell); the SQL range
names in `get_completions_data` (src/utils/utils.py:167-172) and the keys of
`DIFF_TO_RANK` (src/utils/maps.py:386-394) corroborate that order, with
Beginner as the first (skipped) element. -/
def DIFFICULTIES : List String :=
  ["Beginner", "Easy", "Medium", "Hard", "Very Hard", "Extreme", "Hell"]

/-- The fixed per-bucket completion thresholds `_RANK_THRESHOLD`
(src/utils/utils.py:70). -/
def RANK_THRESHOLD : List Nat := [10, 10, 10, 10, 5, 2]

/-- The buckets actually walked, paired with their thresholds: the source
iterates `enumerate(utils.DIFFICULTIES[1:])` ("Ignore Beginner") and reads
`_RANK_THRESHOLD[i]` (src/utils/utils.py:153-154). -/
def walkList : List (String × Nat) := (DIFFICULTIES.drop 1).zip RANK_THRESHOLD

/-- The loop of `rank_finder` (src/utils/utils.py:151-160).  For each walked
bucket: break when the bucket is missing or its completion count is below the
threshold; otherwise (the source re-tests `>= threshold`, kept here verbatim)
increment `rank`, and increment `rank_plus` when the gold count also meets the
threshold and `rank_plus + 1` equals the new `rank`. -/
def rankWalk (a : Amounts) : List (String × Nat) → Nat → Nat → Nat × Nat
  | [], rank, rank_plus => (rank, rank_plus)
  | (diff, thr) :: rest, rank, rank_plus =>
    match a diff with
    | none => (rank, rank_plus)
    | some amt =>
      if amt.1 < thr then (rank, rank_plus)
      else if thr ≤ amt.1 then
        rankWalk a rest (rank + 1)
          (if thr ≤ amt.2.1 ∧ rank_plus + 1 = rank + 1 then rank_plus + 1 else rank_plus)
      else rankWalk a rest rank rank_plus

/-- `rank_finder` (src/utils/utils.py:149-160), as a pure function of the
aggregated per-bucket counts (the source first obtains them from
`get_completions_data`). -/
def rank_finder (a : Amounts) : Nat × Nat := rankWalk a walkList 0 0

/-- Whether one walked bucket passes: present and completion count at or above
the threshold (the negation of the source's break condition
`diff not in amounts or amounts[diff][0] < _RANK_THRESHOLD[i]`). -/
def passB (a : Amounts) (p : String × Nat) : Bool :=
  match a p.1 with
  | none => false
  | some amt => decide (p.2 ≤ amt.1)

/-- Length of the initial run of passing buckets. -/
def passCount (a : Amounts) : List (String × Nat) → Nat
  | [] => 0
  | p :: rest => if passB a p then passCount a rest + 1 else 0

/-- Scenario A input (spec §8): Easy (12,4,0,0), Medium (10,1,0,0). -/
def amountsA : Amounts := fun d =>
  if d = "Easy" then some (12, 4, 0, 0)
  else if d = "Medium" then some (10, 1, 0, 0)
  else none

/-- Scenario B input (spec §8): Easy (15,15,0,0), Medium (10,5,0,0). -/
def amountsB : Amounts := fun d =>
  if d = "Easy" then some (15, 15, 0, 0)
  else if d = "Medium" then some (10, 5, 0, 0)
  else none

/-- An input on which all six walked buckets meet their thresholds. -/
def amountsSix : Amounts := fun d =>
  if d = "Easy" then some (10, 0, 0, 0)
  else if d = "Medium" then some (10, 0, 0, 0)
  else if d = "Hard" then some (10, 0, 0, 0)
  else if d = "Very Hard" then some (10, 0, 0, 0)
  else if d = "Extreme" then some (5, 0, 0, 0)
  else if d = "Hell" then some (2, 0, 0, 0)
  else none

/-- An input passing Easy and Medium with Hard absent. -/
def amountsTwo : Amounts := fun d =>
  if d = "Easy" then some (10, 0, 0, 0)
  else if d = "Medium" then some (10, 0, 0, 0)
  else none


/-! ### Role Reconciler (`auto_role`, src/utils/utils.py:92-146)

Roles are modelled by their numeric ids.  The two ladders `rank_roles` and
`rank_plus_roles` (the source builds them from `utils.Roles.ranks()[1:]` and
`utils.Roles.ranks_plus()[1:]`, constants outside `src/`; spec §4.3/§9
documents them as zero-indexed ladders whose skipped first element is the
automatic tier) are passed in as parameters, as is the member's currently held
role list `user.roles`. -/

/-- `added` (src/utils/utils.py:107-109): the first `rank` ladder roles and
first `rank_plus` plus-ladder roles the member lacks. -/
def addedList (rankRoles rankPlusRoles userRoles : List Nat) (rank rankPlus : Nat) :
    List Nat :=
  (rankRoles.take rank).filter (fun x => !decide (x ∈ userRoles)) ++
    (rankPlusRoles.take rankPlus).filter (fun x => !decide (x ∈ userRoles))

/-- `removed` (src/utils/utils.py:110-112): the held roles in
`rank_roles[rank + 1:]` and `rank_plus_roles[rank_plus + 1:]`. -/
def removedList (rankRoles rankPlusRoles userRoles : List Nat) (rank rankPlus : Nat) :
    List Nat :=
  (rankRoles.drop (rank + 1)).filter (fun x => decide (x ∈ userRoles)) ++
    (rankPlusRoles.drop (rankPlus + 1)).filter (fun x => decide (x ∈ userRoles))

/-- The first mutation loop (src/utils/utils.py:114-116): append each added
role not already present. -/
def addLoop (acc : List Nat) : List Nat → List Nat
  | [] => acc
  | a :: rest => if a ∈ acc then addLoop acc rest else addLoop (acc ++ [a]) rest

/-- The second mutation loop (src/utils/utils.py:117-119): remove (the first
occurrence of) each removed role that is present. -/
def removeLoop (acc : List Nat) : List Nat → List Nat
  | [] => acc
  | r :: rest => if r ∈ acc then removeLoop (acc.erase r) rest else removeLoop acc rest

/-- Equality of the two role lists as sets. -/
def setEqB (l1 l2 : List Nat) : Bool :=
  (l1.all fun x => decide (x ∈ l2)) && (l2.all fun x => decide (x ∈ l1))

/-- The guard `set(new_roles) != set(user.roles)` (src/utils/utils.py:121). -/
def setNe (l1 l2 : List Nat) : Bool := !setEqB l1 l2

/-- The observable outcome of one `auto_role` run: the computed new role list,
whether `user.edit` was called, the value written by the
`UPDATE users SET rank=$2` statement (the statement writes no other column),
the payload of the `newsfeed_role` dispatch when one occurred (the source
passes `added` only), whether a direct message was attempted, and the member's
role list after the run. -/
structure AutoRoleResult where
  newRoles : List Nat
  edited : Bool
  dbRank : Option Nat
  dispatched : Option (List Nat)
  dmSent : Bool
  rolesAfter : List Nat
  deriving DecidableEq, Repr

/-- `auto_role` (src/utils/utils.py:92-146) for a given computed
(rank, rank_plus): compute `added` and `removed`, build `new_roles` by the two
mutation loops, and, when the role sets differ, edit the member's roles and
run the rank update; dispatch `newsfeed_role` with `added` whenever `added` is
non-empty, and attempt a direct message whenever `added` or `removed` is
non-empty. -/
def autoRole (rankRoles rankPlusRoles userRoles : List Nat) (rank rankPlus : Nat) :
    AutoRoleResult :=
  let added := addedList rankRoles rankPlusRoles userRoles rank rankPlus
  let removed := removedList rankRoles rankPlusRoles userRoles rank rankPlus
  let newRoles := removeLoop (addLoop userRoles added) removed
  let changed := setNe newRoles userRoles
  { newRoles := newRoles
    edited := changed
    dbRank := if changed then some rank else none
    dispatched := if added = [] then none else some added
    dmSent := !added.isEmpty || !removed.isEmpty
    rolesAfter := if changed then newRoles else userRoles }



/-! ### Submission Writer (`MapSubmission`, src/utils/maps.py:45-266)

Medal time cutoffs are floats in the source; only their zero/non-zero
truthiness and their identity matter to the claims, so they are modelled as
naturals (`0` standing for Python's falsy `0.0`).  The creator member is
modelled by its id. -/

/-- The `MapSubmission` aggregate (src/utils/maps.py:45-58).  The optional
list fields default to `None` in the source; every code path the claims cover
iterates them, so they are modelled as plain lists. -/
structure MapSubmission where
  creator_id : Nat
  map_code : String
  map_name : String
  checkpoint_count : Nat
  description : Option String
  medals : Option (Nat × Nat × Nat)
  guides : List String
  map_types : List String
  mechanics : List String
  restrictions : List String
  difficulty : String
  deriving DecidableEq, Repr

/-- The `gold` accessor (src/utils/maps.py:102-106): the first cutoff when the
medals tuple is present and that cutoff is truthy (non-zero), else `None`. -/
def MapSubmission.gold (s : MapSubmission) : Option Nat :=
  match s.medals with
  | some m => if m.1 ≠ 0 then some m.1 else none
  | none => none

/-- The `silver` accessor (src/utils/maps.py:108-112). -/
def MapSubmission.silver (s : MapSubmission) : Option Nat :=
  match s.medals with
  | some m => if m.2.1 ≠ 0 then some m.2.1 else none
  | none => none

/-- The `bronze` accessor (src/utils/maps.py:114-118). -/
def MapSubmission.bronze (s : MapSubmission) : Option Nat :=
  match s.medals with
  | some m => if m.2.2 ≠ 0 then some m.2.2 else none
  | none => none

/-- Modelled from the spec: the gold-medal emoji constant
`utils.FULLY_VERIFIED_GOLD` is not under `src/`; only its identity in the
formatted output matters here. -/
def FULLY_VERIFIED_GOLD : String := "<gold>"

/-- Modelled from the spec: the silver-medal emoji constant
`utils.FULLY_VERIFIED_SILVER` is not under `src/`. -/
def FULLY_VERIFIED_SILVER : String := "<silver>"

/-- Modelled from the spec: the bronze-medal emoji constant
`utils.FULLY_VERIFIED_BRONZE` is not under `src/`. -/
def FULLY_VERIFIED_BRONZE : String := "<bronze>"

/-- The `formatted_medals` list built by `medals_str`
(src/utils/maps.py:129-139): one entry per non-`None` accessor, in
gold, silver, bronze order. -/
def medalEntries (s : MapSubmission) : List String :=
  (match s.gold with
   | some v => [FULLY_VERIFIED_GOLD ++ " " ++ toString v]
   | none => []) ++
  (match s.silver with
   | some v => [FULLY_VERIFIED_SILVER ++ " " ++ toString v]
   | none => []) ++
  (match s.bronze with
   | some v => [FULLY_VERIFIED_BRONZE ++ " " ++ toString v]
   | none => [])

/-- `medals_str` (src/utils/maps.py:128-143): the empty string when no entry
was formatted, otherwise the entries joined with a separator. -/
def medals_str (s : MapSubmission) : String :=
  if medalEntries s = [] then "" else " | ".intercalate (medalEntries s)

/-- One persisted row, tagged by the table it belongs to. -/
inductive Row where
  | maps (map_name : String) (map_type : List String) (map_code : String)
      (desc : Option String) (official : Bool) (checkpoints : Nat)
  | mechanic (map_code mechanic : String)
  | restriction (map_code restriction : String)
  | creator (map_code : String) (user_id : Nat)
  | rating (map_code : String) (user_id : Nat) (difficulty : String)
  | guide (map_code url : String)
  | medal (gold silver bronze : Option Nat) (map_code : String)
  | submission_date (user_id : Nat) (map_code : String)
  deriving DecidableEq, Repr

/-- Rows written by `insert_maps` (src/utils/maps.py:170-183); note the
source persists the `mod` flag as the `official` column.  The rating value
inserted by `insert_map_ratings` comes from `DIFFICULTIES_RANGES` (a constants
module outside `src/`), so the rating row carries the difficulty name itself. -/
def insert_maps_rows (s : MapSubmission) (mod : Bool) : List Row :=
  [.maps s.map_name s.map_types s.map_code s.description mod s.checkpoint_count]

/-- Rows written by `insert_mechanics` (src/utils/maps.py:185-193): one per
mechanic. -/
def insert_mechanics_rows (s : MapSubmission) : List Row :=
  s.mechanics.map (fun x => .mechanic s.map_code x)

/-- Rows written by `insert_restrictions` (src/utils/maps.py:195-203). -/
def insert_restrictions_rows (s : MapSubmission) : List Row :=
  s.restrictions.map (fun x => .restriction s.map_code x)

/-- Row written by `insert_map_creators` (src/utils/maps.py:205-213). -/
def insert_map_creators_rows (s : MapSubmission) : List Row :=
  [.creator s.map_code s.creator_id]

/-- Row written by `insert_map_ratings` (src/utils/maps.py:215-224). -/
def insert_map_ratings_rows (s : MapSubmission) : List Row :=
  [.rating s.map_code s.creator_id s.difficulty]

/-- Rows written by `insert_guide` (src/utils/maps.py:226-232): one per truthy
(non-empty) guide link. -/
def insert_guide_rows (s : MapSubmission) : List Row :=
  (s.guides.filter (fun g2 => !decide (g2 = ""))).map (fun g2 => .guide s.map_code g2)

/-- Rows written by `insert_medals` (src/utils/maps.py:234-245): one row of
the three accessor values when the medals tuple is present, nothing
otherwise. -/
def insert_medals_rows (s : MapSubmission) : List Row :=
  match s.medals with
  | some _ => [.medal s.gold s.silver s.bronze s.map_code]
  | none => []

/-- Row written by `insert_timestamp` (src/utils/maps.py:247-256): only when
the submitter is not privileged. -/
def insert_timestamp_rows (s : MapSubmission) (mod : Bool) : List Row :=
  if mod then [] else [.submission_date s.creator_id s.map_code]

/-- The eight row groups, in the order `insert_all` awaits them
(src/utils/maps.py:258-266). -/
inductive Grp where
  | maps | mechanics | restrictions | creators | ratings | guides | medals | timestamp
  deriving DecidableEq, Repr

/-- The write order of `insert_all` (src/utils/maps.py:258-266). -/
def insertOrder : List Grp :=
  [.maps, .mechanics, .restrictions, .creators, .ratings, .guides, .medals, .timestamp]

/-- The rows each group writes. -/
def groupRows (s : MapSubmission) (mod : Bool) : Grp → List Row
  | .maps => insert_maps_rows s mod
  | .mechanics => insert_mechanics_rows s
  | .restrictions => insert_restrictions_rows s
  | .creators => insert_map_creators_rows s
  | .ratings => insert_map_ratings_rows s
  | .guides => insert_guide_rows s
  | .medals => insert_medals_rows s
  | .timestamp => insert_timestamp_rows s mod

/-- Whether a group issues a database call at all: `insert_guide` is guarded
by `if _guides:`, `insert_medals` by `if self.medals:`, `insert_timestamp` by
`if not mod:`; every other group always calls the storage engine. -/
def groupCalls (s : MapSubmission) (mod : Bool) : Grp → Bool
  | .guides => !(insert_guide_rows s).isEmpty
  | .medals => s.medals.isSome
  | .timestamp => !mod
  | _ => true

/-- Executor for `insert_all` under storage-fault injection.  The groups run
strictly in order with no transaction around them (src/utils/maps.py:258-266:
eight independent awaits); a storage error raised by a group's database call
propagates immediately, leaving every row written by the earlier groups in
place.  Returns (no error raised, rows persisted when control returns). -/
def insertAllGo (fail : Grp → Bool) (s : MapSubmission) (mod : Bool) :
    List Grp → List Row → Bool × List Row
  | [], acc => (true, acc)
  | g :: rest, acc =>
    if groupCalls s mod g && fail g then (false, acc)
    else insertAllGo fail s mod rest (acc ++ groupRows s mod g)

/-- `insert_all` (src/utils/maps.py:258-266) under fault injection: `fail g`
says the storage engine raises on group `g`'s call. -/
def insertAll (fail : Grp → Bool) (s : MapSubmission) (mod : Bool) : Bool × List Row :=
  insertAllGo fail s mod insertOrder []

/-- A concrete submission used to exercise the writer. -/
def sampleSub : MapSubmission :=
  { creator_id := 7
    map_code := "XYZ"
    map_name := "Hanamura"
    checkpoint_count := 3
    description := none
    medals := some (10, 20, 30)
    guides := ["", "link1"]
    map_types := ["Classic"]
    mechanics := ["Dash"]
    restrictions := []
    difficulty := "Easy" }



/-! ### Lemmas about the rank walk -/

/-- The rank component of the walk is the start rank plus the length of the
initial run of passing buckets. -/
theorem rankWalk_fst (a : Amounts) (l : List (String × Nat)) :
    ∀ r rp : Nat, (rankWalk a l r rp).1 = r + passCount a l := by
  induction l with
  | nil => intro r rp; simp [rankWalk, passCount]
  | cons p rest ih =>
    intro r rp
    obtain ⟨diff, thr⟩ := p
    cases h : a diff with
    | none => simp [rankWalk, passCount, passB, h]
    | some amt =>
      by_cases hlt : amt.1 < thr
      · have hnle : ¬ thr ≤ amt.1 := by omega
        simp [rankWalk, passCount, passB, h, hlt, hnle]
      · have hle : thr ≤ amt.1 := by omega
        simp [rankWalk, passCount, passB, h, hlt, hle, ih]
        omega

/-- The walk keeps the plus component at or below the rank component. -/
theorem rankWalk_snd_le (a : Amounts) (l : List (String × Nat)) :
    ∀ r rp : Nat, rp ≤ r → (rankWalk a l r rp).2 ≤ (rankWalk a l r rp).1 := by
  induction l with
  | nil => intro r rp hle; simpa [rankWalk] using hle
  | cons p rest ih =>
    intro r rp hle
    obtain ⟨diff, thr⟩ := p
    cases h : a diff with
    | none => simpa [rankWalk, h] using hle
    | some amt =>
      by_cases hlt : amt.1 < thr
      · simpa [rankWalk, h, hlt] using hle
      · have hle2 : thr ≤ amt.1 := by omega
        simp [rankWalk, h, hlt, hle2]
        apply ih
        split <;> omega

/-- Raising one bucket's completion count can only lengthen the initial run of
passing buckets. -/
theorem passCount_mono (a a' : Amounts) (d : String) (c c' g s b : Nat)
    (hd : a d = some (c, g, s, b)) (hd' : a' d = some (c', g, s, b))
    (hcc : c ≤ c') (hother : ∀ x, x ≠ d → a' x = a x) :
    ∀ l : List (String × Nat), passCount a l ≤ passCount a' l := by
  intro l
  induction l with
  | nil => simp [passCount]
  | cons p rest ih =>
    by_cases hp : passB a p = true
    · have hp' : passB a' p = true := by
        by_cases hpd : p.1 = d
        · unfold passB at hp ⊢
          rw [hpd] at hp ⊢
          rw [hd] at hp
          rw [hd']
          simp only [decide_eq_true_eq] at hp ⊢
          omega
        · unfold passB at hp ⊢
          rw [hother p.1 hpd]
          exact hp
      simpa [passCount, hp, hp'] using ih
    · simp [passCount, hp]

/-- If the first `k` walked buckets pass and the bucket at position `k` fails,
the walk returns the start rank plus `k`. -/
theorem rankWalk_first_fail (a : Amounts) :
    ∀ (l : List (String × Nat)) (k r rp : Nat), k < l.length →
      (∀ j, j < k → passB a (l.getD j ("", 0)) = true) →
      passB a (l.getD k ("", 0)) = false →
      (rankWalk a l r rp).1 = r + k := by
  intro l
  induction l with
  | nil => intro k r rp hk _ _; simp at hk
  | cons p rest ih =>
    intro k r rp hk hpass hfail
    obtain ⟨diff, thr⟩ := p
    cases k with
    | zero =>
      rw [List.getD_cons_zero] at hfail
      unfold passB at hfail
      cases h : a diff with
      | none => simp [rankWalk, h]
      | some amt =>
        rw [h] at hfail
        simp only [decide_eq_false_iff_not] at hfail
        have hlt : amt.1 < thr := by omega
        simp [rankWalk, h, hlt]
    | succ k' =>
      have hp0 := hpass 0 (Nat.succ_pos k')
      rw [List.getD_cons_zero] at hp0
      unfold passB at hp0
      cases h : a diff with
      | none => rw [h] at hp0; simp at hp0
      | some amt =>
        rw [h] at hp0
        simp only [decide_eq_true_eq] at hp0
        have hlt : ¬ amt.1 < thr := by omega
        simp only [rankWalk, h, hlt, if_false, hp0, if_true]
        rw [ih k' (r + 1) _ (by simpa using hk)
          (fun j hj => by
            have := hpass (j + 1) (by omega)
            simpa using this)
          (by simpa using hfail)]
        omega

/-! ### Claim theorems: Rank Calculator -/

/-- Claim C7: with the fixed thresholds (10,10,10,10,5,2) over the bucket
order (Easy, Medium, Hard, Very Hard, Extreme, Hell), the Rank Calculator
returns (2, 0) on Scenario A and (2, 1) on Scenario B. -/
theorem rank_finder_scenario_values :
    rank_finder amountsA = (2, 0) ∧ rank_finder amountsB = (2, 1) := by decide

/-- Claim C4: both components returned by the Rank Calculator are
non-negative, the plus component never exceeds the rank component, and the
empty input (a player with zero qualifying completions) returns exactly
(0, 0). -/
theorem rank_finder_bounds :
    (∀ a : Amounts,
      (rank_finder a).2 ≤ (rank_finder a).1 ∧
        0 ≤ (rank_finder a).1 ∧ 0 ≤ (rank_finder a).2) ∧
    rank_finder (fun _ => none) = (0, 0) := by
  refine ⟨fun a => ⟨rankWalk_snd_le a walkList 0 0 (Nat.le_refl 0),
    Nat.zero_le _, Nat.zero_le _⟩, by decide⟩

/-- Claim C6: monotonicity — raising one bucket's completion count while every
other count (including that bucket's medal counts) stays fixed never lowers
the computed rank. -/
theorem rank_finder_monotone (a a' : Amounts) (d : String) (c c' g s b : Nat)
    (hd : a d = some (c, g, s, b)) (hd' : a' d = some (c', g, s, b))
    (hcc : c ≤ c') (hother : ∀ x, x ≠ d → a' x = a x) :
    (rank_finder a).1 ≤ (rank_finder a').1 := by
  have h1 := rankWalk_fst a walkList 0 0
  have h2 := rankWalk_fst a' walkList 0 0
  have h3 := passCount_mono a a' d c c' g s b hd hd' hcc hother walkList
  unfold rank_finder
  omega

theorem rank_finder_monotone_witness :
    (3 : Nat) ≤ 10 ∧
    (rank_finder (fun x => if x = "Easy" then some (10, 0, 0, 0)
        else if x = "Medium" then some (3, 0, 0, 0) else none)).1 ≤
      (rank_finder (fun x => if x = "Medium" then some (10, 0, 0, 0)
        else if x = "Easy" then some (10, 0, 0, 0) else none)).1 :=
  ⟨by decide,
   rank_finder_monotone _ _ "Medium" 3 10 0 0 0 (by decide) (by decide) (by decide)
     (by intro x hx; by_cases hxe : x = "Easy" <;> simp [hxe, hx])⟩

/-- Claim C3 counterexample: on `amountsSix` every walked bucket passes and
the computed rank is 6 — the walk therefore covers six non-entry buckets; a
walk over only five buckets could never return a rank above 5. -/
theorem rank_finder_six_buckets :
    rank_finder amountsSix = (6, 0) ∧ ¬ (rank_finder amountsSix).1 ≤ 5 := by decide

/-- Claim C3 (amended: the walk covers the six non-entry buckets, not five):
the Rank Calculator walks the non-entry buckets in increasing difficulty order
and stops at the first bucket that is missing or below its threshold; if the
bucket at walk position k is the first to fail, the returned rank equals k —
the number of buckets strictly below it, all of which passed — regardless of
whether any bucket above k would have passed. -/
theorem rank_finder_contiguity (a : Amounts) (k : Nat) (hk : k < walkList.length)
    (hpass : ∀ j, j < k → passB a (walkList.getD j ("", 0)) = true)
    (hfail : passB a (walkList.getD k ("", 0)) = false) :
    (rank_finder a).1 = k := by
  have := rankWalk_first_fail a walkList k 0 0 hk hpass hfail
  simpa [rank_finder] using this

theorem rank_finder_contiguity_witness :
    (2 < walkList.length ∧
      (∀ j, j < 2 → passB amountsTwo (walkList.getD j ("", 0)) = true) ∧
      passB amountsTwo (walkList.getD 2 ("", 0)) = false) ∧
    (rank_finder amountsTwo).1 = 2 :=
  ⟨⟨by decide, by decide, by decide⟩,
   rank_finder_contiguity amountsTwo 2 (by decide) (by decide) (by decide)⟩

/-! ### Lemmas about the role-delta loops -/

theorem setEqB_iff (l1 l2 : List Nat) :
    setEqB l1 l2 = true ↔ ∀ x : Nat, x ∈ l1 ↔ x ∈ l2 := by
  simp only [setEqB, Bool.and_eq_true, List.all_eq_true, decide_eq_true_eq]
  constructor
  · rintro ⟨h1, h2⟩ x
    exact ⟨fun hx => h1 x hx, fun hx => h2 x hx⟩
  · intro h
    exact ⟨fun x hx => (h x).mp hx, fun x hx => (h x).mpr hx⟩

theorem setNe_eq_true_iff (l1 l2 : List Nat) :
    setNe l1 l2 = true ↔ ¬ (∀ x : Nat, x ∈ l1 ↔ x ∈ l2) := by
  rw [← setEqB_iff]
  unfold setNe
  cases setEqB l1 l2 <;> simp

theorem setNe_self (l : List Nat) : setNe l l = false := by
  unfold setNe
  rw [(setEqB_iff l l).mpr fun _ => Iff.rfl]
  rfl

theorem mem_addLoop (x : Nat) : ∀ (l acc : List Nat), x ∈ addLoop acc l ↔ x ∈ acc ∨ x ∈ l := by
  intro l
  induction l with
  | nil => intro acc; simp [addLoop]
  | cons a rest ih =>
    intro acc
    by_cases ha : a ∈ acc
    · simp only [addLoop, ha, if_true, ih, List.mem_cons]
      constructor
      · tauto
      · rintro (h | rfl | h)
        · exact Or.inl h
        · exact Or.inl ha
        · exact Or.inr h
    · simp only [addLoop, ha, if_false, ih, List.mem_append, List.mem_cons,
        List.mem_singleton]
      tauto

theorem nodup_addLoop : ∀ (l acc : List Nat), acc.Nodup → (addLoop acc l).Nodup := by
  intro l
  induction l with
  | nil => intro acc h; exact h
  | cons a rest ih =>
    intro acc h
    by_cases ha : a ∈ acc
    · simpa [addLoop, ha] using ih acc h
    · simp only [addLoop, ha, if_false]
      refine ih _ ?_
      rw [List.nodup_append]
      refine ⟨h, List.nodup_singleton a, ?_⟩
      intro x hx hxa
      rw [List.mem_singleton] at hxa
      exact ha (hxa ▸ hx)

theorem mem_removeLoop_of_not_mem (x : Nat) :
    ∀ (l acc : List Nat), x ∉ l → x ∈ acc → x ∈ removeLoop acc l := by
  intro l
  induction l with
  | nil => intro acc _ hacc; exact hacc
  | cons a rest ih =>
    intro acc hx hacc
    have hxa : x ≠ a := fun h => hx (h ▸ List.mem_cons_self a rest)
    have hxrest : x ∉ rest := fun h => hx (List.mem_cons_of_mem a h)
    by_cases ha : a ∈ acc
    · simp only [removeLoop, ha, if_true]
      exact ih _ hxrest ((List.mem_erase_of_ne hxa).mpr hacc)
    · simp only [removeLoop, ha, if_false]
      exact ih _ hxrest hacc

theorem mem_removeLoop_iff (x : Nat) :
    ∀ (l acc : List Nat), acc.Nodup → (x ∈ removeLoop acc l ↔ x ∈ acc ∧ x ∉ l) := by
  intro l
  induction l with
  | nil => intro acc _; simp [removeLoop]
  | cons a rest ih =>
    intro acc h
    by_cases ha : a ∈ acc
    · simp only [removeLoop, ha, if_true]
      rw [ih _ (h.erase a), h.mem_erase_iff]
      simp only [List.mem_cons]
      constructor
      · rintro ⟨⟨hne, hmem⟩, hrest⟩
        exact ⟨hmem, by rintro (rfl | hm); exact hne rfl; exact hrest hm⟩
      · rintro ⟨hmem, hcons⟩
        exact ⟨⟨fun h2 => hcons (Or.inl h2), hmem⟩, fun hm => hcons (Or.inr hm)⟩
    · simp only [removeLoop, ha, if_false]
      rw [ih _ h]
      simp only [List.mem_cons]
      constructor
      · rintro ⟨hmem, hrest⟩
        exact ⟨hmem, by rintro (rfl | hm); exact ha hmem; exact hrest hm⟩
      · rintro ⟨hmem, hcons⟩
        exact ⟨hmem, fun hm => hcons (Or.inr hm)⟩

theorem mem_addedList (rR rPR uR : List Nat) (r rp x : Nat) :
    x ∈ addedList rR rPR uR r rp ↔
      (x ∈ rR.take r ∨ x ∈ rPR.take rp) ∧ x ∉ uR := by
  simp only [addedList, List.mem_append, List.mem_filter, Bool.not_eq_true',
    decide_eq_false_iff_not, or_and_right]

theorem mem_removedList (rR rPR uR : List Nat) (r rp x : Nat) :
    x ∈ removedList rR rPR uR r rp ↔
      (x ∈ rR.drop (r + 1) ∨ x ∈ rPR.drop (rp + 1)) ∧ x ∈ uR := by
  simp only [removedList, List.mem_append, List.mem_filter,
    decide_eq_true_eq, or_and_right]

/-- In a duplicate-free list, an element of the first `n` items never occurs
past position `n`. -/
theorem not_mem_drop_succ_of_mem_take {l : List Nat} {n x : Nat}
    (hnd : l.Nodup) (hx : x ∈ l.take n) : x ∉ l.drop (n + 1) := by
  intro hx2
  have h0 : (l.take (n + 1)).take n = l.take n := by
    rw [List.take_take]
    congr 1
    omega
  rw [← h0] at hx
  have h1 : x ∈ l.take (n + 1) := List.take_subset n _ hx
  have h2 : (l.take (n + 1) ++ l.drop (n + 1)).Nodup := by
    rw [List.take_append_drop]
    exact hnd
  exact (List.nodup_append.mp h2).2.2 h1 hx2

/-- After one `auto_role` run, recomputing the deltas against the member's
resulting role list yields an empty `added` and an empty `removed`, provided
the two ladders hold pairwise distinct roles and the member's role list is
duplicate-free. -/
theorem auto_role_second_run_deltas (rR rPR uR : List Nat) (r rp : Nat)
    (hnd : (rR ++ rPR).Nodup) (hu : uR.Nodup) :
    addedList rR rPR (autoRole rR rPR uR r rp).rolesAfter r rp = [] ∧
    removedList rR rPR (autoRole rR rPR uR r rp).rolesAfter r rp = [] := by
  obtain ⟨hrr, hpr, hdisj⟩ := List.nodup_append.mp hnd
  set added := addedList rR rPR uR r rp with hadded
  set removed := removedList rR rPR uR r rp with hremoved
  set A := addLoop uR added with hA
  set R := removeLoop A removed with hR
  have hAnodup : A.Nodup := nodup_addLoop added uR hu
  have hmemR : ∀ x : Nat, x ∈ R ↔ (x ∈ uR ∨ x ∈ added) ∧ x ∉ removed := by
    intro x
    rw [hR, mem_removeLoop_iff x removed A hAnodup, hA, mem_addLoop]
  -- every target-ladder role ends up in R
  have htargetR : ∀ x : Nat, (x ∈ rR.take r ∨ x ∈ rPR.take rp) → x ∈ R := by
    intro x hx
    rw [hmemR]
    constructor
    · by_cases hxu : x ∈ uR
      · exact Or.inl hxu
      · exact Or.inr ((mem_addedList rR rPR uR r rp x).mpr ⟨hx, hxu⟩)
    · intro hxrem
      obtain ⟨hdr, _⟩ := (mem_removedList rR rPR uR r rp x).mp hxrem
      rcases hx with hx | hx <;> rcases hdr with hdr | hdr
      · exact not_mem_drop_succ_of_mem_take hrr hx hdr
      · exact hdisj (List.take_subset r rR hx) (List.drop_subset _ rPR hdr)
      · exact hdisj (List.drop_subset _ rR hdr) (List.take_subset rp rPR hx)
      · exact not_mem_drop_succ_of_mem_take hpr hx hdr
  -- no role past the target level survives in R
  have hdropR : ∀ x : Nat,
      (x ∈ rR.drop (r + 1) ∨ x ∈ rPR.drop (rp + 1)) → x ∉ R := by
    intro x hx hxR
    obtain ⟨hor, hnrem⟩ := (hmemR x).mp hxR
    rcases hor with hxu | hxa
    · exact hnrem ((mem_removedList rR rPR uR r rp x).mpr ⟨hx, hxu⟩)
    · obtain ⟨htk, _⟩ := (mem_addedList rR rPR uR r rp x).mp hxa
      rcases htk with htk | htk <;> rcases hx with hx | hx
      · exact not_mem_drop_succ_of_mem_take hrr htk hx
      · exact hdisj (List.take_subset r rR htk) (List.drop_subset _ rPR hx)
      · exact hdisj (List.drop_subset _ rR hx) (List.take_subset rp rPR htk)
      · exact not_mem_drop_succ_of_mem_take hpr htk hx
  have haddedNil : ∀ ur2 : List Nat,
      (∀ x : Nat, (x ∈ rR.take r ∨ x ∈ rPR.take rp) → x ∈ ur2) →
      addedList rR rPR ur2 r rp = [] := by
    intro ur2 hsub
    rw [addedList, List.append_eq_nil]
    constructor <;> rw [List.filter_eq_nil_iff] <;> intro x hx <;>
      simp only [Bool.not_eq_true', decide_eq_false_iff_not, Decidable.not_not]
    · exact hsub x (Or.inl hx)
    · exact hsub x (Or.inr hx)
  have hremovedNil : ∀ ur2 : List Nat,
      (∀ x : Nat, (x ∈ rR.drop (r + 1) ∨ x ∈ rPR.drop (rp + 1)) → x ∉ ur2) →
      removedList rR rPR ur2 r rp = [] := by
    intro ur2 hsub
    rw [removedList, List.append_eq_nil]
    constructor <;> rw [List.filter_eq_nil_iff] <;> intro x hx <;>
      simp only [decide_eq_true_eq]
    · exact hsub x (Or.inl hx)
    · exact hsub x (Or.inr hx)
  have hafter : (autoRole rR rPR uR r rp).rolesAfter = if setNe R uR then R else uR := by
    simp only [autoRole]
  rw [hafter]
  by_cases hch : setNe R uR = true
  · rw [if_pos hch]
    exact ⟨haddedNil R htargetR, hremovedNil R hdropR⟩
  · rw [if_neg hch]
    have hiff : ∀ x : Nat, x ∈ R ↔ x ∈ uR :=
      not_not.mp (fun hc => hch ((setNe_eq_true_iff R uR).mpr hc))
    have haddednil : added = [] := by
      by_contra hne
      obtain ⟨x, hxadd⟩ := List.exists_mem_of_ne_nil added hne
      obtain ⟨_, hxu⟩ := (mem_addedList rR rPR uR r rp x).mp hxadd
      have hxrem : x ∉ removed := fun hm =>
        hxu ((mem_removedList rR rPR uR r rp x).mp hm).2
      have hxR : x ∈ R := (hmemR x).mpr ⟨Or.inr hxadd, hxrem⟩
      exact hxu ((hiff x).mp hxR)
    have hremovednil : removed = [] := by
      by_contra hne
      obtain ⟨x, hxrem⟩ := List.exists_mem_of_ne_nil removed hne
      have hxu : x ∈ uR := ((mem_removedList rR rPR uR r rp x).mp hxrem).2
      have hxR : x ∉ R := fun hm => ((hmemR x).mp hm).2 hxrem
      exact hxR ((hiff x).mpr hxu)
    exact ⟨haddednil, hremovednil⟩

/-! ### Claim theorems: Role Reconciler -/

/-- Claim C2 counterexample: with ladders [1..6]/[11..16], a member holding
only role 2 (the second ladder role) and a computed (rank, rank_plus) = (0, 0),
the target grant set (empty) differs from the held set — the source itself
edits the roles (`edited = true`) — yet no rank-change event is dispatched,
because the source dispatches only when `added` is non-empty and passes only
the added roles. -/
theorem auto_role_removal_only_no_event :
    (autoRole [1, 2, 3, 4, 5, 6] [11, 12, 13, 14, 15, 16] [2] 0 0).edited = true ∧
    (autoRole [1, 2, 3, 4, 5, 6] [11, 12, 13, 14, 15, 16] [2] 0 0).dispatched = none ∧
    (autoRole [1, 2, 3, 4, 5, 6] [11, 12, 13, 14, 15, 16] [2] 0 0).dbRank = some 0 := by
  decide

/-- Claim C2 (amended: when the computed delta changes the held role set,
`auto_role` applies the role delta and persists the new rank — only the rank,
the update statement writes no rank_plus column — and it dispatches a
rank-change event carrying exactly the added roles, and only when at least one
role was added; a dispatch implies the role sets differed). -/
theorem auto_role_sync_rank_only (rR rPR uR : List Nat) (r rp : Nat) :
    ((autoRole rR rPR uR r rp).edited = true ↔
      ¬ (∀ x : Nat, x ∈ (autoRole rR rPR uR r rp).newRoles ↔ x ∈ uR)) ∧
    (autoRole rR rPR uR r rp).dbRank =
      (if (autoRole rR rPR uR r rp).edited then some r else none) ∧
    (autoRole rR rPR uR r rp).dispatched =
      (if addedList rR rPR uR r rp = [] then none
       else some (addedList rR rPR uR r rp)) ∧
    ((autoRole rR rPR uR r rp).dispatched ≠ none →
      (autoRole rR rPR uR r rp).edited = true) := by
  refine ⟨?_, ?_, ?_, ?_⟩
  · simp only [autoRole]
    exact setNe_eq_true_iff _ uR
  · simp only [autoRole]
  · simp only [autoRole]
  · intro hdisp
    have hne : addedList rR rPR uR r rp ≠ [] := by
      intro h0
      apply hdisp
      simp [autoRole, h0]
    obtain ⟨x, hxadd⟩ := List.exists_mem_of_ne_nil _ hne
    obtain ⟨_, hxu⟩ := (mem_addedList rR rPR uR r rp x).mp hxadd
    have hxrem : x ∉ removedList rR rPR uR r rp := fun hm =>
      hxu ((mem_removedList rR rPR uR r rp x).mp hm).2
    have hxA : x ∈ addLoop uR (addedList rR rPR uR r rp) :=
      (mem_addLoop x (addedList rR rPR uR r rp) uR).mpr (Or.inr hxadd)
    have hxR : x ∈ removeLoop (addLoop uR (addedList rR rPR uR r rp))
        (removedList rR rPR uR r rp) :=
      mem_removeLoop_of_not_mem x _ _ hxrem hxA
    simp only [autoRole]
    rw [setNe_eq_true_iff]
    intro hall
    exact hxu ((hall x).mp hxR)

/-- Claim C5: with ladders [1..6]/[11..16] (ladder index 0 being the skipped
automatic tier, so role 3 sits at ladder index 3), a member holding roles
[1, 2, 3] demoted to rank 2 keeps role 3: the source computes `removed` from
`rank_roles[rank + 1:]`, so the held ladder role at slice position `rank` —
ladder index rank + 1, above the new target level — is neither a target role
nor removed, and the run changes nothing. -/
theorem auto_role_demotion_keeps_gap_role :
    removedList [1, 2, 3, 4, 5, 6] [11, 12, 13, 14, 15, 16] [1, 2, 3] 2 0 = [] ∧
    addedList [1, 2, 3, 4, 5, 6] [11, 12, 13, 14, 15, 16] [1, 2, 3] 2 0 = [] ∧
    (autoRole [1, 2, 3, 4, 5, 6] [11, 12, 13, 14, 15, 16] [1, 2, 3] 2 0).rolesAfter =
      [1, 2, 3] ∧
    (autoRole [1, 2, 3, 4, 5, 6] [11, 12, 13, 14, 15, 16] [1, 2, 3] 2 0).edited =
      false := by
  decide

/-- Claim C8: idempotence — a second `auto_role` run immediately after a
completed run, with the same computed (rank, rank_plus) and the member's roles
as the first run left them, performs no role mutation, no database update and
no dispatch, and leaves the role list unchanged (assuming the two ladders hold
pairwise distinct roles and the member's role list is duplicate-free). -/
theorem auto_role_idempotent (rR rPR uR : List Nat) (r rp : Nat)
    (hnd : (rR ++ rPR).Nodup) (hu : uR.Nodup) :
    (autoRole rR rPR (autoRole rR rPR uR r rp).rolesAfter r rp).edited = false ∧
    (autoRole rR rPR (autoRole rR rPR uR r rp).rolesAfter r rp).dbRank = none ∧
    (autoRole rR rPR (autoRole rR rPR uR r rp).rolesAfter r rp).dispatched = none ∧
    (autoRole rR rPR (autoRole rR rPR uR r rp).rolesAfter r rp).dmSent = false ∧
    (autoRole rR rPR (autoRole rR rPR uR r rp).rolesAfter r rp).rolesAfter =
      (autoRole rR rPR uR r rp).rolesAfter := by
  obtain ⟨ha2, hr2⟩ := auto_role_second_run_deltas rR rPR uR r rp hnd hu
  set uR2 := (autoRole rR rPR uR r rp).rolesAfter with huR2
  simp only [autoRole, ha2, hr2, addLoop, removeLoop, setNe_self, Bool.false_eq_true,
    if_false, if_pos rfl, List.isEmpty_nil, Bool.not_true, Bool.or_self, and_self]
  simp

theorem auto_role_idempotent_witness :
    (([1, 2] ++ [3, 4] : List Nat).Nodup ∧ ([2] : List Nat).Nodup) ∧
    ((autoRole [1, 2] [3, 4] (autoRole [1, 2] [3, 4] [2] 1 0).rolesAfter 1 0).edited
        = false ∧
      (autoRole [1, 2] [3, 4] (autoRole [1, 2] [3, 4] [2] 1 0).rolesAfter 1 0).dbRank
        = none ∧
      (autoRole [1, 2] [3, 4] (autoRole [1, 2] [3, 4] [2] 1 0).rolesAfter 1 0).dispatched
        = none ∧
      (autoRole [1, 2] [3, 4] (autoRole [1, 2] [3, 4] [2] 1 0).rolesAfter 1 0).dmSent
        = false ∧
      (autoRole [1, 2] [3, 4] (autoRole [1, 2] [3, 4] [2] 1 0).rolesAfter 1 0).rolesAfter
        = (autoRole [1, 2] [3, 4] [2] 1 0).rolesAfter) :=
  ⟨⟨by decide, by decide⟩,
   auto_role_idempotent [1, 2] [3, 4] [2] 1 0 (by decide) (by decide)⟩

/-! ### Claim theorems: Submission Writer -/

/-- Claim C1: on `sampleSub`, a storage error injected at the fifth group's
write (`insert_map_ratings`) propagates out of `insert_all` while the rows of
the first four groups (maps, mechanics, restrictions, creators) remain
persisted: the eight groups are eight independent sequential awaits with no
transaction around them (src/utils/maps.py:258-266), so a mid-sequence
failure does not leave zero rows. -/
theorem insert_all_keeps_rows_on_fifth_group_failure :
    insertAll (fun g => g = Grp.ratings) sampleSub false =
      (false,
        [Row.maps "Hanamura" ["Classic"] "XYZ" none false 3,
         Row.mechanic "XYZ" "Dash",
         Row.creator "XYZ" 7]) ∧
    (insertAll (fun g => g = Grp.ratings) sampleSub false).2 ≠ [] := by decide

/-- Claim C9: the Submission Writer writes one guide row per non-empty guide
link and none for an empty link, writes the medal-threshold row iff medal
thresholds were supplied, writes the submission-timestamp row iff the
submitter is not privileged (mod flag false), and a fault-free run persists
the rows of all eight groups in order. -/
theorem insert_groups_conditional (s : MapSubmission) (mod : Bool) :
    (insert_guide_rows s).length = s.guides.countP (fun g2 => !decide (g2 = "")) ∧
    (insert_medals_rows s ≠ [] ↔ s.medals ≠ none) ∧
    (insert_timestamp_rows s mod ≠ [] ↔ mod = false) ∧
    (insertAll (fun _ => false) s mod).1 = true ∧
    (insertAll (fun _ => false) s mod).2 =
      insert_maps_rows s mod ++ insert_mechanics_rows s ++ insert_restrictions_rows s ++
        insert_map_creators_rows s ++ insert_map_ratings_rows s ++ insert_guide_rows s ++
        insert_medals_rows s ++ insert_timestamp_rows s mod := by
  refine ⟨?_, ?_, ?_, ?_, ?_⟩
  · simp [insert_guide_rows, List.countP_eq_length_filter]
  · cases hm : s.medals <;> simp [insert_medals_rows, hm]
  · cases mod <;> simp [insert_timestamp_rows]
  · simp [insertAll, insertAllGo, insertOrder]
  · simp [insertAll, insertAllGo, insertOrder, groupRows, List.append_assoc]

/-- Claim C10: when the medals tuple is present, each accessor returns `None`
exactly when its cutoff is 0, a zero gold cutoff is omitted from the formatted
medal entries (only the silver and bronze parts remain), and the
medal-threshold write persists it as a null value. -/
theorem medal_zero_cutoff_like_absent (s : MapSubmission) (a b c : Nat)
    (h : s.medals = some (a, b, c)) :
    (s.gold = none ↔ a = 0) ∧ (s.silver = none ↔ b = 0) ∧ (s.bronze = none ↔ c = 0) ∧
    (a = 0 → medalEntries s =
      (match s.silver with
       | some v => [FULLY_VERIFIED_SILVER ++ " " ++ toString v]
       | none => []) ++
      (match s.bronze with
       | some v => [FULLY_VERIFIED_BRONZE ++ " " ++ toString v]
       | none => [])) ∧
    (a = 0 → insert_medals_rows s = [Row.medal none s.silver s.bronze s.map_code]) := by
  refine ⟨?_, ?_, ?_, ?_, ?_⟩
  · simp only [MapSubmission.gold, h]
    by_cases ha : a = 0 <;> simp [ha]
  · simp only [MapSubmission.silver, h]
    by_cases hb : b = 0 <;> simp [hb]
  · simp only [MapSubmission.bronze, h]
    by_cases hc : c = 0 <;> simp [hc]
  · intro ha
    have hg : s.gold = none := by simp [MapSubmission.gold, h, ha]
    simp [medalEntries, hg]
  · intro ha
    have hg : s.gold = none := by simp [MapSubmission.gold, h, ha]
    simp [insert_medals_rows, h, hg]

/-- A submission whose supplied medals tuple carries a zero gold cutoff and a
zero bronze cutoff. -/
def zeroGoldSub : MapSubmission :=
  { sampleSub with medals := some (0, 5, 0) }

theorem medal_zero_cutoff_like_absent_witness :
    zeroGoldSub.medals = some (0, 5, 0) ∧ zeroGoldSub.gold = none ∧
    medalEntries zeroGoldSub =
      [FULLY_VERIFIED_SILVER ++ " " ++ toString (5 : Nat)] ∧
    insert_medals_rows zeroGoldSub = [Row.medal none (some 5) none "XYZ"] := by
  have h := medal_zero_cutoff_like_absent zeroGoldSub 0 5 0 (by decide)
  refine ⟨by decide, h.1.mpr rfl, ?_, ?_⟩
  · have h4 := h.2.2.2.1 rfl
    rw [h4]
    decide
  · have h5 := h.2.2.2.2 rfl
    rw [h5]
    decide

end Genji
